import Mathlib

/-
Verification of the dynamic-library demonstration (sharedlib.c and
tutorial14_main.c): a shallow embedding of the library operations and of the
resolution and invocation sequence of the host program, with theorems about the
properties the design document states.

Modelling conventions:
- C byte buffers become total functions from indices to byte values
  (with explicit pointwise updates); a possibly-null pointer becomes Option.
- A C string argument becomes a list of byte values; strlen is the length of
  the longest zero-free prefix, as in C.
- 32-bit signed int arithmetic is modelled on Int with an explicit
  wrap into the range from -2^31 to 2^31 - 1 where overflow matters.
-/

/-- Wrap an integer into the range of a 32-bit signed int (twos complement). -/
def wrap32 (n : Int) : Int := (n + 2147483648) % 4294967296 - 2147483648

/-- From sharedlib.c, internal_calculate: return (a * b) + (a + b),
each operation performed in 32-bit int arithmetic. -/
def internal_calculate (a b : Int) : Int :=
  wrap32 (wrap32 (a * b) + wrap32 (a + b))

/-- From sharedlib.c, lib_execute_callback: if the callback pointer is null
return -1, else call the callback on internal_calculate(value, 10) and return
its result.  The callback pointer is modelled as an Option of a function. -/
def lib_execute_callback (cb : Option (Int → Int)) (value : Int) : Int :=
  match cb with
  | none => -1
  | some f => f (internal_calculate value 10)

/-- From tutorial14_main.c, my_callback: return value * 2 (32-bit). -/
def my_callback (value : Int) : Int := wrap32 (value * 2)

theorem wrap32_add_left (a b : Int) : wrap32 (wrap32 a + b) = wrap32 (a + b) := by
  unfold wrap32
  omega

theorem internal_calculate_eq (v : Int) :
    internal_calculate v 10 = wrap32 (v * 11 + 10) := by
  unfold internal_calculate wrap32
  omega

/-- C3: lib_execute_callback on a non-null callback cb and value v invokes cb
exactly on the internal transform v * 11 + 10 (32-bit wraparound) and returns
the result of the callback; in particular, with the doubling callback of the main
program and value 7 it returns 174. -/
theorem C3_execute_callback (v : Int) (cb : Int → Int) :
    lib_execute_callback (some cb) v = cb (wrap32 (v * 11 + 10)) ∧
    lib_execute_callback (some my_callback) 7 = 174 := by
  constructor
  · show cb (internal_calculate v 10) = cb (wrap32 (v * 11 + 10))
    rw [internal_calculate_eq]
  · decide

/-- Pointwise update of a byte buffer: write value v at index idx. -/
def updateBuf (buf : Nat → Nat) (idx v : Nat) : Nat → Nat :=
  fun j => if j = idx then v else buf j

/-- From sharedlib.c, the body of the uppercase step: if c is an ASCII
lowercase letter, c - 'a' + 'A', else c. -/
def ucByte (c : Nat) : Nat := if 97 ≤ c ∧ c ≤ 122 then c - 97 + 65 else c

/-- Recursion scaffold of the write loop of lib_process_data, structural on
the number of remaining iterations: while i < len and fuel remains, write
ucByte(input[len - 1 - i]) at index i of the output buffer and advance i. -/
def copyLoopAux (inp : List Nat) (len : Nat) : Nat → Nat → (Nat → Nat) → (Nat → Nat)
  | 0, _, buf => buf
  | fuel + 1, i, buf =>
    if i < len then
      copyLoopAux inp len fuel (i + 1) (updateBuf buf i (ucByte (inp.getD (len - 1 - i) 0)))
    else buf

/-- From sharedlib.c, the write loop of lib_process_data: for i from the
given start up to len - 1, write ucByte(input[len - 1 - i]) at index i of
the output buffer.  The fuel len - i covers every iteration. -/
def copyLoop (inp : List Nat) (len i : Nat) (buf : Nat → Nat) : Nat → Nat :=
  copyLoopAux inp len (len - i) i buf

/-- C strlen on a byte list: length of the longest zero-free prefix. -/
def strlen (s : List Nat) : Nat := (s.takeWhile (fun c => c != 0)).length

/-- From sharedlib.c, lib_process_data: return -1 when input or output is
null or the capacity is zero; return -2 when strlen(input) >= output_size;
otherwise run the write loop, write the terminator 0 at index len, and
return len.  The second component is the output buffer after the call
(unchanged on the failure paths). -/
def lib_process_data (input : Option (List Nat)) (output : Option (Nat → Nat))
    (output_size : Nat) : Int × Option (Nat → Nat) :=
  match input, output with
  | some inp, some buf =>
    if output_size = 0 then (-1, some buf)
    else
      let len := strlen inp
      if len ≥ output_size then (-2, some buf)
      else ((len : Int), some (updateBuf (copyLoop inp len 0 buf) len 0))
  | _, _ => (-1, output)

/-- Read the first n bytes of a buffer as a list. -/
def readStr (buf : Nat → Nat) (n : Nat) : List Nat := (List.range n).map buf

/-- Modelled from the spec: the transformation lib_process_data is stated to
compute, namely "reverse the input byte sequence, uppercase ASCII lowercase
letters".  Comparison definition for the refinement claims. -/
def specTransform (s : List Nat) : List Nat := s.reverse.map ucByte

/-- All-zero byte buffer. -/
def zeroBuf : Nat → Nat := fun _ => 0

/-- All-one byte buffer. -/
def oneBuf : Nat → Nat := fun _ => 1

/-- Byte list of a string of ASCII characters. -/
def strBytes (s : String) : List Nat := s.toList.map Char.toNat

theorem copyLoopAux_apply (inp : List Nat) (len : Nat) :
    ∀ (fuel i : Nat), len - i ≤ fuel → ∀ (buf : Nat → Nat) (j : Nat),
      copyLoopAux inp len fuel i buf j =
        if i ≤ j ∧ j < len then ucByte (inp.getD (len - 1 - j) 0) else buf j := by
  intro fuel
  induction fuel with
  | zero =>
    intro i hi buf j
    show buf j = _
    rw [if_neg (by omega : ¬ (i ≤ j ∧ j < len))]
  | succ k ih =>
    intro i hi buf j
    simp only [copyLoopAux]
    by_cases hlt : i < len
    · rw [if_pos hlt, ih (i + 1) (by omega)]
      by_cases hij : j = i
      · subst hij
        rw [if_neg (by omega : ¬ (j + 1 ≤ j ∧ j < len)),
          if_pos (⟨Nat.le_refl j, hlt⟩ : j ≤ j ∧ j < len)]
        unfold updateBuf
        rw [if_pos rfl]
      · unfold updateBuf
        by_cases hc : i + 1 ≤ j ∧ j < len
        · rw [if_pos hc, if_pos (by omega : i ≤ j ∧ j < len)]
        · rw [if_neg hc, if_neg hij, if_neg (by omega : ¬ (i ≤ j ∧ j < len))]
    · rw [if_neg hlt, if_neg (by omega : ¬ (i ≤ j ∧ j < len))]

theorem copyLoop_apply (inp : List Nat) (len i : Nat) (buf : Nat → Nat) (j : Nat) :
    copyLoop inp len i buf j =
      if i ≤ j ∧ j < len then ucByte (inp.getD (len - 1 - j) 0) else buf j :=
  copyLoopAux_apply inp len (len - i) i (Nat.le_refl _) buf j

theorem processBuf_apply (inp : List Nat) (len : Nat) (buf : Nat → Nat) (j : Nat) :
    updateBuf (copyLoop inp len 0 buf) len 0 j =
      if j = len then 0
      else if j < len then ucByte (inp.getD (len - 1 - j) 0) else buf j := by
  unfold updateBuf
  by_cases hj : j = len
  · rw [if_pos hj, if_pos hj]
  · rw [if_neg hj, if_neg hj, copyLoop_apply inp len 0 buf j]
    by_cases hlt : j < len
    · rw [if_pos (by omega : 0 ≤ j ∧ j < len), if_pos hlt]
    · rw [if_neg (by omega : ¬ (0 ≤ j ∧ j < len)), if_neg hlt]

theorem strlen_eq_length (s : List Nat) (h : ∀ c ∈ s, c ≠ 0) :
    strlen s = s.length := by
  induction s with
  | nil => rfl
  | cons a t ih =>
    have ha : (a != 0) = true := by
      simpa using h a (List.mem_cons_self a t)
    have ht := ih (fun c hc => h c (List.mem_cons_of_mem a hc))
    unfold strlen at ht ⊢
    rw [List.takeWhile_cons, if_pos ha, List.length_cons, ht, List.length_cons]

theorem readStr_final (s : List Nat) (buf : Nat → Nat) :
    readStr (updateBuf (copyLoop s s.length 0 buf) s.length 0) s.length =
      s.reverse.map ucByte := by
  apply List.ext_getElem
  · simp [readStr]
  · intro j h1 h2
    simp only [readStr, List.getElem_map, List.getElem_range]
    have hj : j < s.length := by simpa [readStr] using h1
    rw [processBuf_apply, if_neg (by omega : ¬ j = s.length), if_pos hj,
      List.getElem_reverse]
    congr 1
    rw [List.getD_eq_getElem s 0 (by omega : s.length - 1 - j < s.length)]

theorem process_success (s : List Nat) (buf : Nat → Nat) (cap : Nat)
    (hnz : ∀ c ∈ s, c ≠ 0) (hlen : s.length < cap) :
    (lib_process_data (some s) (some buf) cap).1 = (s.length : Int) ∧
    (lib_process_data (some s) (some buf) cap).2 =
      some (updateBuf (copyLoop s s.length 0 buf) s.length 0) := by
  have hsl : strlen s = s.length := strlen_eq_length s hnz
  simp only [lib_process_data]
  rw [if_neg (by omega : ¬ cap = 0)]
  simp only [hsl, ge_iff_le]
  rw [if_neg (by omega : ¬ cap ≤ s.length)]
  exact ⟨rfl, rfl⟩

theorem process_success_readStr (s : List Nat) (buf : Nat → Nat) (cap : Nat)
    (hnz : ∀ c ∈ s, c ≠ 0) (hlen : s.length < cap) :
    readStr ((lib_process_data (some s) (some buf) cap).2.getD zeroBuf) s.length =
      s.reverse.map ucByte := by
  rw [(process_success s buf cap hnz hlen).2, Option.getD_some, readStr_final]

/-- C1: for every input string of printable ASCII bytes whose length is less
than the capacity, with both pointers present, lib_process_data returns the
length, fills the output with the reverse of the input with lowercase mapped
to uppercase (the spec transformation), and null-terminates it; in
particular, on "Hello Dynamic Library" with capacity 256 it returns 21 and
the output reads "YRARBIL CIMANYD OLLEH". -/
theorem C1_process_reverse_uppercase (s : List Nat) (buf : Nat → Nat) (cap : Nat)
    (hp : ∀ c ∈ s, 32 ≤ c ∧ c ≤ 126) (hlen : s.length < cap) :
    (lib_process_data (some s) (some buf) cap).1 = (s.length : Int) ∧
    readStr ((lib_process_data (some s) (some buf) cap).2.getD zeroBuf) s.length =
      specTransform s ∧
    ((lib_process_data (some s) (some buf) cap).2.getD zeroBuf) s.length = 0 ∧
    (lib_process_data (some (strBytes ("Hello Dynamic Library"))) (some zeroBuf) 256).1 = 21 ∧
    readStr ((lib_process_data (some (strBytes ("Hello Dynamic Library")))
        (some zeroBuf) 256).2.getD zeroBuf) 21 =
      strBytes ("YRARBIL CIMANYD OLLEH") := by
  have hnz : ∀ c ∈ s, c ≠ 0 := fun c hc => by have := hp c hc; omega
  have h := process_success s buf cap hnz hlen
  refine ⟨h.1, ?_, ?_, by decide, by decide⟩
  · exact process_success_readStr s buf cap hnz hlen
  · rw [h.2, Option.getD_some, processBuf_apply, if_pos rfl]

theorem C1_witness :
    (lib_process_data (some (strBytes ("aZ b"))) (some oneBuf) 5).1 =
      ((strBytes ("aZ b")).length : Int) ∧
    readStr ((lib_process_data (some (strBytes ("aZ b"))) (some oneBuf) 5).2.getD zeroBuf)
      (strBytes ("aZ b")).length = specTransform (strBytes ("aZ b")) ∧
    ((lib_process_data (some (strBytes ("aZ b"))) (some oneBuf) 5).2.getD zeroBuf)
      (strBytes ("aZ b")).length = 0 ∧
    (lib_process_data (some (strBytes ("Hello Dynamic Library"))) (some zeroBuf) 256).1 = 21 ∧
    readStr ((lib_process_data (some (strBytes ("Hello Dynamic Library")))
        (some zeroBuf) 256).2.getD zeroBuf) 21 =
      strBytes ("YRARBIL CIMANYD OLLEH") :=
  C1_process_reverse_uppercase (strBytes ("aZ b")) oneBuf 5 (by decide) (by decide)

/-- C4: lib_process_data returns the InvalidArgument code -1 exactly when the
input pointer is absent, the output pointer is absent, or the capacity is
zero; with both pointers present and capacity at least 1 it returns the
BufferTooSmall code -2 exactly when strlen(input) is at least the capacity,
and otherwise succeeds, returning the nonnegative length. -/
theorem C4_error_conditions (input : Option (List Nat)) (output : Option (Nat → Nat))
    (cap : Nat) :
    ((lib_process_data input output cap).1 = -1 ↔
      input = none ∨ output = none ∨ cap = 0) ∧
    (∀ inp buf, input = some inp → output = some buf → 1 ≤ cap →
      ((lib_process_data input output cap).1 = -2 ↔ cap ≤ strlen inp) ∧
      (strlen inp < cap →
        (lib_process_data input output cap).1 = (strlen inp : Int) ∧
        0 ≤ (lib_process_data input output cap).1)) := by
  constructor
  · match input, output with
    | none, _ => simp [lib_process_data]
    | some inp, none => simp [lib_process_data]
    | some inp, some buf =>
      simp only [lib_process_data]
      by_cases hc : cap = 0
      · simp [hc]
      · rw [if_neg hc]
        by_cases hge : strlen inp ≥ cap
        · rw [if_pos hge]
          simp [hc]
        · rw [if_neg hge]
          simp only [reduceCtorEq, hc, or_self, iff_false]
          try omega
  · rintro inp buf rfl rfl hcap
    simp only [lib_process_data]
    rw [if_neg (by omega : ¬ cap = 0)]
    by_cases hge : strlen inp ≥ cap
    · rw [if_pos hge]
      exact ⟨by simpa using hge, by omega⟩
    · rw [if_neg hge]
      refine ⟨by simp; omega, fun _ => ⟨rfl, by omega⟩⟩

theorem C4_witness :
    ((lib_process_data (some [65, 66]) (some zeroBuf) 1).1 = -2 ↔
      1 ≤ strlen [65, 66]) ∧
    ((lib_process_data (some [65]) (some zeroBuf) 0).1 = -1 ↔
      (some [65] : Option (List Nat)) = none ∨
      (some zeroBuf : Option (Nat → Nat)) = none ∨ (0 : Nat) = 0) ∧
    (lib_process_data (some [65, 66]) (some zeroBuf) 3).1 = (strlen [65, 66] : Int) := by
  refine ⟨?_, ?_, ?_⟩
  · exact ((C4_error_conditions (some [65, 66]) (some zeroBuf) 1).2
      [65, 66] zeroBuf rfl rfl (by decide)).1
  · exact (C4_error_conditions (some [65]) (some zeroBuf) 0).1
  · exact (((C4_error_conditions (some [65, 66]) (some zeroBuf) 3).2
      [65, 66] zeroBuf rfl rfl (by decide)).2 (by decide)).1

/-- C7: lib_process_data never writes at or past the capacity: for every
call with an output buffer present, every index at or past the capacity
holds its old value afterwards; on success the length plus terminator fit
(strlen(input) + 1 is at most the capacity) and every index past
strlen(input) also holds its old value. -/
theorem C7_no_overflow_write (input : Option (List Nat)) (buf : Nat → Nat)
    (cap : Nat) (j : Nat) :
    (cap ≤ j →
      ((lib_process_data input (some buf) cap).2.getD zeroBuf) j = buf j) ∧
    (0 ≤ (lib_process_data input (some buf) cap).1 →
      strlen (input.getD []) + 1 ≤ cap ∧
      (strlen (input.getD []) < j →
        ((lib_process_data input (some buf) cap).2.getD zeroBuf) j = buf j)) := by
  match input with
  | none =>
    refine ⟨fun _ => rfl, fun h0 => by simp [lib_process_data] at h0⟩
  | some inp =>
    simp only [lib_process_data, Option.getD_some]
    by_cases hc : cap = 0
    · rw [if_pos hc]
      exact ⟨fun _ => rfl, fun h0 => by simp at h0⟩
    · rw [if_neg hc]
      by_cases hge : strlen inp ≥ cap
      · rw [if_pos hge]
        exact ⟨fun _ => rfl, fun h0 => by simp at h0⟩
      · rw [if_neg hge]
        simp only [Option.getD_some]
        constructor
        · intro hcj
          rw [processBuf_apply, if_neg (by omega : ¬ j = strlen inp),
            if_neg (by omega : ¬ j < strlen inp)]
        · intro _
          refine ⟨by omega, fun hj => ?_⟩
          rw [processBuf_apply, if_neg (by omega : ¬ j = strlen inp),
            if_neg (by omega : ¬ j < strlen inp)]

theorem C7_witness :
    ((lib_process_data (some [72, 73]) (some oneBuf) 3).2.getD zeroBuf) 5 = oneBuf 5 ∧
    strlen [72, 73] + 1 ≤ 3 ∧
    ((lib_process_data (some [72, 73]) (some oneBuf) 3).2.getD zeroBuf) 4 = oneBuf 4 := by
  refine ⟨?_, ?_, ?_⟩
  · exact (C7_no_overflow_write (some [72, 73]) oneBuf 3 5).1 (by decide)
  · exact ((C7_no_overflow_write (some [72, 73]) oneBuf 3 5).2 (by decide)).1
  · exact ((C7_no_overflow_write (some [72, 73]) oneBuf 3 4).2 (by decide)).2 (by decide)

/-- C8: whenever lib_process_data fails (returns a negative code), the
output buffer is exactly the one passed in: every check precedes the first
write, so a failing call leaves the output unchanged. -/
theorem C8_failure_leaves_output (input : Option (List Nat))
    (output : Option (Nat → Nat)) (cap : Nat)
    (hfail : (lib_process_data input output cap).1 < 0) :
    (lib_process_data input output cap).2 = output := by
  match input, output with
  | none, _ => rfl
  | some inp, none => rfl
  | some inp, some buf =>
    simp only [lib_process_data] at hfail ⊢
    by_cases hc : cap = 0
    · rw [if_pos hc]
    · rw [if_neg hc] at hfail ⊢
      by_cases hge : strlen inp ≥ cap
      · rw [if_pos hge]
      · rw [if_neg hge] at hfail
        simp at hfail
        omega

theorem C8_witness :
    (lib_process_data none (some zeroBuf) 5).2 = some zeroBuf ∧
    (lib_process_data (some [65, 66]) (some oneBuf) 2).2 = some oneBuf :=
  ⟨C8_failure_leaves_output none (some zeroBuf) 5 (by decide),
   C8_failure_leaves_output (some [65, 66]) (some oneBuf) 2 (by decide)⟩

theorem map_ucByte_id (s : List Nat) (h : ∀ c ∈ s, ¬ (97 ≤ c ∧ c ≤ 122)) :
    s.map ucByte = s := by
  induction s with
  | nil => rfl
  | cons a t ih =>
    have ha : ucByte a = a := by
      unfold ucByte
      rw [if_neg (h a (List.mem_cons_self a t))]
    rw [List.map_cons, ha, ih (fun c hc => h c (List.mem_cons_of_mem a hc))]

theorem ucByte_ne_zero (c : Nat) (h : c ≠ 0) : ucByte c ≠ 0 := by
  unfold ucByte
  by_cases hc : 97 ≤ c ∧ c ≤ 122
  · rw [if_pos hc]
    omega
  · rw [if_neg hc]
    exact h

/-- C9: for every input string with no ASCII lowercase letters (and no zero
bytes) that fits the capacity, running lib_process_data on the input and
then on the resulting output string returns the original input: the
transformation is reversal composed with uppercasing, reversal is an
involution, and uppercasing fixes such strings. -/
theorem C9_involution (s : List Nat) (buf1 buf2 : Nat → Nat) (cap : Nat)
    (hnz : ∀ c ∈ s, c ≠ 0) (hlow : ∀ c ∈ s, ¬ (97 ≤ c ∧ c ≤ 122))
    (hlen : s.length < cap) :
    readStr ((lib_process_data
        (some (readStr ((lib_process_data (some s) (some buf1) cap).2.getD zeroBuf)
          s.length))
        (some buf2) cap).2.getD zeroBuf) s.length = s := by
  have hrev : ∀ c ∈ s.reverse, ¬ (97 ≤ c ∧ c ≤ 122) :=
    fun c hc => hlow c (List.mem_reverse.mp hc)
  have hrevnz : ∀ c ∈ s.reverse, c ≠ 0 :=
    fun c hc => hnz c (List.mem_reverse.mp hc)
  have h1 : readStr ((lib_process_data (some s) (some buf1) cap).2.getD zeroBuf)
      s.length = s.reverse := by
    rw [process_success_readStr s buf1 cap hnz hlen, map_ucByte_id s.reverse hrev]
  rw [h1]
  have hlen2 : s.reverse.length < cap := by
    rw [List.length_reverse]
    exact hlen
  have h2 := process_success_readStr s.reverse buf2 cap hrevnz hlen2
  rw [List.length_reverse] at h2
  rw [h2, List.reverse_reverse, map_ucByte_id s hlow]

theorem C9_witness :
    readStr ((lib_process_data
        (some (readStr ((lib_process_data (some [65, 32, 66]) (some zeroBuf) 4).2.getD
          zeroBuf) 3))
        (some oneBuf) 4).2.getD zeroBuf) 3 = [65, 32, 66] :=
  C9_involution [65, 32, 66] zeroBuf oneBuf 4 (by decide) (by decide) (by decide)

/-- The memory the library operations can see: the exported global counter,
the input buffer of the host, and the output buffer of the host. -/
structure LibState where
  counter : Int
  inputBuf : List Nat
  outBuf : Nat → Nat

/-- From sharedlib.c: the exported global counter starts at zero when the
module is loaded. -/
def lib_global_counter : Int := 0

/-- From sharedlib.c, lib_increment_counter: add one to the counter in
32-bit int arithmetic; there is no failure path. -/
def lib_increment_counter (c : Int) : Int := wrap32 (c + 1)

/-- lib_increment_counter acting on the full library state. -/
def lib_increment_counter_st (st : LibState) : LibState :=
  { st with counter := lib_increment_counter st.counter }

/-- lib_process_data acting on the full library state: the two booleans say
whether the input and output pointers are non-null.  The function body of
lib_process_data references neither the counter nor writes the (const)
input, so only the output buffer component can change. -/
def lib_process_data_st (st : LibState) (inPresent outPresent : Bool)
    (cap : Nat) : Int × LibState :=
  let r := lib_process_data (if inPresent then some st.inputBuf else none)
    (if outPresent then some st.outBuf else none) cap
  (r.1, { st with outBuf := r.2.getD st.outBuf })

/-- The counter after n calls of lib_increment_counter on a freshly loaded
module. -/
def iterCounter : Nat → Int
  | 0 => lib_global_counter
  | n + 1 => lib_increment_counter (iterCounter n)

/-- C5: the counter starts at zero; n increments from a fresh module leave
it at n wrapped to 32-bit (hence exactly n for every n below 2^31);
lib_increment_counter adds one with wraparound and has no failure mode; and
lib_process_data leaves the counter unchanged. -/
theorem C5_counter (n : Nat) (st : LibState) (inP outP : Bool) (cap : Nat) :
    lib_global_counter = 0 ∧
    iterCounter n = wrap32 (n : Int) ∧
    (n < 2147483648 → iterCounter n = (n : Int)) ∧
    (lib_increment_counter_st st).counter = wrap32 (st.counter + 1) ∧
    (lib_process_data_st st inP outP cap).2.counter = st.counter := by
  have hiter : ∀ m : Nat, iterCounter m = wrap32 (m : Int) := by
    intro m
    induction m with
    | zero => decide
    | succ k ih =>
      show lib_increment_counter (iterCounter k) = _
      rw [ih]
      unfold lib_increment_counter
      rw [wrap32_add_left]
      push_cast
      rfl
  refine ⟨rfl, hiter n, fun hn => ?_, rfl, rfl⟩
  rw [hiter n]
  unfold wrap32
  omega

theorem C5_witness :
    lib_global_counter = 0 ∧
    iterCounter 3 = wrap32 (3 : Int) ∧
    iterCounter 3 = (3 : Int) ∧
    (lib_increment_counter_st ⟨5, [], zeroBuf⟩).counter = wrap32 (5 + 1) ∧
    (lib_process_data_st ⟨5, [65], zeroBuf⟩ true true 4).2.counter = 5 := by
  have h := C5_counter 3 ⟨5, [], zeroBuf⟩ true true 4
  have h2 := C5_counter 3 ⟨5, [65], zeroBuf⟩ true true 4
  exact ⟨h.1, h.2.1, h.2.2.1 (by omega), h.2.2.2.1, h2.2.2.2.2⟩

/-- C10: lib_process_data neither reads nor writes the shared counter and
never writes the input buffer: after any call the counter and the input
bytes are exactly as before, and both the returned code and the resulting
output buffer are independent of the counter value. -/
theorem C10_process_frame (st : LibState) (c : Int) (inP outP : Bool) (cap : Nat) :
    (lib_process_data_st st inP outP cap).2.counter = st.counter ∧
    (lib_process_data_st st inP outP cap).2.inputBuf = st.inputBuf ∧
    (lib_process_data_st { st with counter := c } inP outP cap).1 =
      (lib_process_data_st st inP outP cap).1 ∧
    (lib_process_data_st { st with counter := c } inP outP cap).2.outBuf =
      (lib_process_data_st st inP outP cap).2.outBuf :=
  ⟨rfl, rfl, rfl, rfl⟩

/-- Observable actions of the host program of tutorial14_main.c. -/
inductive HostEvent where
  | dlopenEv : HostEvent
  | dlsymEv : String → HostEvent
  | invokeEv : String → HostEvent
  | dlcloseEv : HostEvent
deriving DecidableEq

/-- The environment the host runs against: whether the module path
resolves, the loader diagnostic text when it does not, and which symbol
names the module exports. -/
structure HostEnv where
  moduleLoads : Bool
  dlerrorMsg : String
  hasSym : String → Bool

/-- Outcome of a host run: process exit code, ordered trace of loader
actions and invocations, and the diagnostics printed to stderr. -/
structure HostResult where
  exitCode : Nat
  events : List HostEvent
  stderr : List String

/-- The export names tutorial14_main.c resolves, in program order. -/
def requiredSyms : List String :=
  ["lib_initialize", "lib_process_data", "lib_execute_callback",
   "lib_increment_counter", "lib_global_counter"]

/-- From tutorial14_main.c, main: dlopen the module (on failure print the
loader diagnostic and exit 1); dlsym all five required names; if any came
back null print "Failed to find symbols", dlclose, and exit 1; otherwise
invoke the four exported functions, dlclose, and exit 0. -/
def hostMain (env : HostEnv) : HostResult :=
  if env.moduleLoads then
    let symEvents := requiredSyms.map HostEvent.dlsymEv
    if requiredSyms.all env.hasSym then
      { exitCode := 0
        events := HostEvent.dlopenEv :: symEvents ++
          [HostEvent.invokeEv ("lib_initialize"), HostEvent.invokeEv ("lib_process_data"),
           HostEvent.invokeEv ("lib_execute_callback"),
           HostEvent.invokeEv ("lib_increment_counter"), HostEvent.dlcloseEv]
        stderr := [] }
    else
      { exitCode := 1
        events := HostEvent.dlopenEv :: symEvents ++ [HostEvent.dlcloseEv]
        stderr := ["Failed to find symbols"] }
  else
    { exitCode := 1
      events := [HostEvent.dlopenEv]
      stderr := ["Failed to load library: " ++ env.dlerrorMsg] }

/-- True when the event is a symbol resolution. -/
def isDlsym : HostEvent → Bool
  | HostEvent.dlsymEv _ => true
  | _ => false

/-- True when the event is an invocation of a resolved export. -/
def isInvoke : HostEvent → Bool
  | HostEvent.invokeEv _ => true
  | _ => false

/-- True when no symbol resolution occurs after any invocation in the
trace: every resolution precedes every invocation. -/
def resolveBeforeInvoke : List HostEvent → Bool
  | [] => true
  | e :: rest =>
    (if isInvoke e then rest.all (fun x => ! isDlsym x) else true) &&
      resolveBeforeInvoke rest

/-- Does the first list occur at the start of the second? -/
def leadsWith : List Char → List Char → Bool
  | [], _ => true
  | _ :: _, [] => false
  | a :: as, b :: bs => a == b && leadsWith as bs

/-- Does the first list occur contiguously anywhere in the second? -/
def occursIn (needle : List Char) : List Char → Bool
  | [] => leadsWith needle []
  | c :: rest => leadsWith needle (c :: rest) || occursIn needle rest

def envMissingInit : HostEnv :=
  { moduleLoads := true, dlerrorMsg := "", hasSym := fun s => s != "lib_initialize" }

def envMissingSym : HostEnv :=
  { moduleLoads := true, dlerrorMsg := "", hasSym := fun s => s != "lib_global_counter" }

/-- C2 counterexample: with lib_initialize as the missing export, the host
exits 1 but its diagnostic is the fixed text "Failed to find symbols": the
name of the missing export does not occur in it, and the diagnostic is
identical to the one produced when a different export (lib_global_counter)
is missing, so the failure cannot be naming the missing export. -/
theorem C2_counterexample :
    (hostMain envMissingInit).exitCode = 1 ∧
    (hostMain envMissingInit).stderr = ["Failed to find symbols"] ∧
    occursIn (String.toList ("lib_initialize"))
      (String.toList ("Failed to find symbols")) = false ∧
    (hostMain envMissingInit).stderr = (hostMain envMissingSym).stderr := by
  refine ⟨?_, ?_, ?_, ?_⟩ <;> decide

/-- C2 (amended): in every run of the host, all symbol resolutions happen
before any invocation, and in every run where the module loads all five
required exports are resolved; if any single export is missing the run
fails with exit code 1 and the fixed diagnostic "Failed to find symbols"
(which does not name the missing export), the module is released exactly
once, and no exported operation is invoked. -/
theorem C2_missing_symbol (env : HostEnv) (s : String)
    (hload : env.moduleLoads = true) (hs : s ∈ requiredSyms)
    (hno : env.hasSym s = false) :
    (∀ e : HostEnv, resolveBeforeInvoke (hostMain e).events = true) ∧
    (∀ e : HostEnv, e.moduleLoads = true →
      ∀ name ∈ requiredSyms, HostEvent.dlsymEv name ∈ (hostMain e).events) ∧
    (hostMain env).exitCode = 1 ∧
    (hostMain env).stderr = ["Failed to find symbols"] ∧
    (hostMain env).events.count HostEvent.dlcloseEv = 1 ∧
    (∀ name, HostEvent.invokeEv name ∉ (hostMain env).events) ∧
    (∀ name ∈ requiredSyms, HostEvent.dlsymEv name ∈ (hostMain env).events) ∧
    resolveBeforeInvoke (hostMain env).events = true := by
  have hord : ∀ e : HostEnv, resolveBeforeInvoke (hostMain e).events = true := by
    intro e
    by_cases hb : e.moduleLoads = true
    · by_cases ha : requiredSyms.all e.hasSym = true
      · simp only [hostMain, hb, ha, if_true]
        decide
      · simp only [hostMain, hb, if_true]
        rw [if_neg ha]
        decide
    · simp only [hostMain]
      rw [if_neg hb]
      rfl
  have hsyms : ∀ e : HostEnv, e.moduleLoads = true →
      ∀ name ∈ requiredSyms, HostEvent.dlsymEv name ∈ (hostMain e).events := by
    intro e hb name hn
    by_cases ha : requiredSyms.all e.hasSym = true
    · simp only [hostMain, hb, ha, if_true]
      exact List.mem_cons_of_mem _ (List.mem_append_left _ (List.mem_map_of_mem _ hn))
    · simp only [hostMain, hb, if_true]
      rw [if_neg ha]
      exact List.mem_cons_of_mem _ (List.mem_append_left _ (List.mem_map_of_mem _ hn))
  have hall : requiredSyms.all env.hasSym = false := by
    cases hA : requiredSyms.all env.hasSym with
    | false => rfl
    | true =>
      have hmem : env.hasSym s = true := by
        have := List.all_eq_true.mp hA s hs
        simpa using this
      rw [hno] at hmem
      exact absurd hmem (by decide)
  refine ⟨hord, hsyms, ?_, ?_, ?_, ?_, hsyms env hload, hord env⟩
  · simp [hostMain, hload, hall]
  · simp [hostMain, hload, hall]
  · simp only [hostMain, hload, hall, if_true, if_false, Bool.false_eq_true]
    decide
  · intro name
    simp only [hostMain, hload, hall, if_true, if_false, Bool.false_eq_true]
    simp [requiredSyms]

def envAllSyms : HostEnv :=
  { moduleLoads := true, dlerrorMsg := "", hasSym := fun _ => true }

theorem C2_witness :
    resolveBeforeInvoke (hostMain envAllSyms).events = true ∧
    HostEvent.dlsymEv ("lib_global_counter") ∈ (hostMain envAllSyms).events ∧
    (hostMain envMissingSym).exitCode = 1 ∧
    (hostMain envMissingSym).stderr = ["Failed to find symbols"] ∧
    (hostMain envMissingSym).events.count HostEvent.dlcloseEv = 1 ∧
    HostEvent.invokeEv ("lib_process_data") ∉ (hostMain envMissingSym).events ∧
    HostEvent.dlsymEv ("lib_global_counter") ∈ (hostMain envMissingSym).events ∧
    resolveBeforeInvoke (hostMain envMissingSym).events = true := by
  have h := C2_missing_symbol envMissingSym ("lib_global_counter") rfl
    (by decide) (by decide)
  exact ⟨h.1 envAllSyms, h.2.1 envAllSyms rfl ("lib_global_counter") (by decide),
    h.2.2.1, h.2.2.2.1, h.2.2.2.2.1, h.2.2.2.2.2.1 ("lib_process_data"),
    h.2.2.2.2.2.2.1 ("lib_global_counter") (by decide), h.2.2.2.2.2.2.2⟩

/-- C6: the host exits 0 exactly when the module loads and every required
export resolves, and exits 1 otherwise; when module resolution itself
fails, the diagnostic carries the loader error text and no symbol
resolution is attempted afterward. -/
theorem C6_exit_codes (env : HostEnv) :
    ((hostMain env).exitCode = 0 ↔
      env.moduleLoads = true ∧ requiredSyms.all env.hasSym = true) ∧
    ((hostMain env).exitCode = 1 ↔
      ¬ (env.moduleLoads = true ∧ requiredSyms.all env.hasSym = true)) ∧
    (env.moduleLoads = false →
      (hostMain env).stderr = ["Failed to load library: " ++ env.dlerrorMsg] ∧
      ∀ s, HostEvent.dlsymEv s ∉ (hostMain env).events) := by
  cases hb : env.moduleLoads
  · simp [hostMain, hb]
  · cases ha : requiredSyms.all env.hasSym
    · simp [hostMain, ha, hb]
    · simp [hostMain, ha, hb]

def envNoLoad : HostEnv :=
  { moduleLoads := false
    dlerrorMsg := "libshared14.so: cannot open shared object file"
    hasSym := fun _ => true }

theorem C6_witness :
    (hostMain envNoLoad).exitCode = 1 ∧
    (hostMain envNoLoad).stderr =
      ["Failed to load library: " ++ envNoLoad.dlerrorMsg] ∧
    HostEvent.dlsymEv ("lib_process_data") ∉ (hostMain envNoLoad).events := by
  have h := C6_exit_codes envNoLoad
  exact ⟨h.2.1.mpr (by decide), (h.2.2 rfl).1, (h.2.2 rfl).2 ("lib_process_data")⟩
